import Mathlib

/-!
Verification of the transcription job lifecycle manager of the tabscribe
repository (files src/lib/transcription/manager.ts, src/lib/transcription/assemblyai.ts,
src/lib/stores/recordings.ts, src/lib/types/index.ts), shallowly embedded in Lean.

Modelling conventions:
- TypeScript optional fields become Option values; undefined is none.
- JavaScript string truthiness (empty string is falsy) is modelled by strTruthy,
  and the expression a.text || b.text by textOr.
- Timestamps (Date values) are Nat milliseconds.
- A thrown JavaScript exception is modelled as Except.error carrying
  Option String: some message for an Error instance, none for a non-Error throw
  (the code distinguishes the two with an instanceof check).
- The recordings store method update(id, fields) replaces the whole transcription
  object of the record (it spreads only at the Recording level), so each store
  write is modelled by the complete TranscriptionData value written, and the
  stored transcription after a trace of events is the last write of the trace.
- Network interaction of an operation is recorded in its event trace: a poll
  event for each adapter checkStatus call, and a write event for each store update.
-/

/-- The closed status set of src/lib/types/index.ts (TranscriptionStatus). -/
inductive TranscriptionStatus
  | pending
  | processing
  | completed
  | error
deriving DecidableEq, Repr

/-- TranscriptionData from src/lib/types/index.ts: the transcription record
embedded on a Recording. -/
structure TranscriptionData where
  status : TranscriptionStatus
  text : Option String := none
  error : Option String := none
  service : String
  jobId : Option String := none
  startedAt : Option Nat := none
  completedAt : Option Nat := none
deriving DecidableEq, Repr

/-- TranscriptionResult from src/lib/types/index.ts: what the adapter submit
operation returns. -/
structure TranscriptionResult where
  jobId : Option String := none
  status : TranscriptionStatus
  text : Option String := none
  error : Option String := none
deriving DecidableEq, Repr

/-- TranscriptionStatusResult from src/lib/types/index.ts: what one adapter
poll returns. -/
structure TranscriptionStatusResult where
  status : TranscriptionStatus
  text : Option String := none
  error : Option String := none
deriving DecidableEq, Repr

/-- JavaScript truthiness of an optional string: undefined and the empty
string are falsy. -/
def strTruthy : Option String → Bool
  | none => false
  | some s => s ≠ ""

/-- The JavaScript expression a || b on optional strings, as used in
text: status.text || recording.transcription.text. -/
def textOr (newText oldText : Option String) : Option String :=
  match newText with
  | none => oldText
  | some s => if s = "" then oldText else some s

/-- The message extracted from a caught JavaScript exception:
e instanceof Error ? e.message : generic. -/
def jsErrMessage (e : Option String) (generic : String) : String :=
  e.getD generic

/-- AssemblyAIUtterance from src/lib/transcription/assemblyai.ts. The field
finish models the source field named end (a reserved word in Lean). -/
structure AssemblyAIUtterance where
  speaker : String
  text : String
  confidence : Float
  start : Nat
  finish : Nat
deriving Repr

/-- AssemblyAIAdapter.mapStatus from src/lib/transcription/assemblyai.ts:
the switch over the provider status string. Modelled on arbitrary strings,
since the runtime value comes from parsed JSON. -/
def mapStatus (status : String) : TranscriptionStatus :=
  if status = "completed" then .completed
  else if status = "error" then .error
  else if status = "queued" then .processing
  else if status = "processing" then .processing
  else .pending

/-- String(n).padStart(2, the digit zero) for the decimal rendering of a Nat. -/
def padStart2 (s : String) : String :=
  if s.length ≥ 2 then s else String.mk (List.replicate (2 - s.length) '0') ++ s

/-- AssemblyAIAdapter.formatTimestamp from src/lib/transcription/assemblyai.ts. -/
def formatTimestamp (ms : Nat) : String :=
  let totalSeconds := ms / 1000
  let hours := totalSeconds / 3600
  let minutes := (totalSeconds % 3600) / 60
  let seconds := totalSeconds % 60
  if hours > 0 then
    Nat.repr hours ++ ":" ++ padStart2 (Nat.repr minutes) ++ ":" ++ padStart2 (Nat.repr seconds)
  else
    Nat.repr minutes ++ ":" ++ padStart2 (Nat.repr seconds)

/-- The body of the map inside AssemblyAIAdapter.formatUtterances: one
rendered segment. -/
def formatUtterance (u : AssemblyAIUtterance) : String :=
  "[" ++ formatTimestamp u.start ++ " - " ++ formatTimestamp u.finish ++ "] Speaker "
    ++ u.speaker ++ ":\n" ++ u.text ++ "\n"

/-- AssemblyAIAdapter.formatUtterances from src/lib/transcription/assemblyai.ts:
map each utterance to its segment and join with a newline. The source does not
reorder the list. -/
def formatUtterances (us : List AssemblyAIUtterance) : String :=
  String.intercalate "\n" (us.map formatUtterance)

/-- AssemblyAIAdapter.transcribe from src/lib/transcription/assemblyai.ts.
The two network steps uploadFile and createTranscript are the parameters:
upload yields the upload url or throws, create applied to that url yields the
transcript id or throws; the catch converts either throw into an error result. -/
def adapterTranscribe (upload : Except (Option String) String)
    (create : String → Except (Option String) String) : TranscriptionResult :=
  match upload with
  | .error e => { status := .error, error := some (jsErrMessage e "Transcription failed") }
  | .ok url =>
    match create url with
    | .error e => { status := .error, error := some (jsErrMessage e "Transcription failed") }
    | .ok id => { jobId := some id, status := .processing }

/-- The parsed body of one GET transcript response
(AssemblyAITranscriptResponse in src/lib/transcription/assemblyai.ts). -/
structure AssemblyAITranscriptResponse where
  id : String
  status : String
  text : Option String := none
  error : Option String := none
  utterances : Option (List AssemblyAIUtterance) := none
  speaker_labels : Option Bool := none
deriving Repr

/-- AssemblyAIAdapter.checkStatus from src/lib/transcription/assemblyai.ts:
given the fetch outcome (a parsed response, or a throw from a non-ok response,
network failure or JSON error), produce the status result; every throw is
caught and mapped to an error-status result. -/
def adapterCheckStatus (resp : Except (Option String) AssemblyAITranscriptResponse) :
    TranscriptionStatusResult :=
  match resp with
  | .error e => { status := .error, error := some (jsErrMessage e "Failed to check status") }
  | .ok data =>
    let formattedText :=
      match data.speaker_labels, data.utterances with
      | some true, some us => if us.length > 0 then some (formatUtterances us) else data.text
      | _, _ => data.text
    { status := mapStatus data.status, text := formattedText, error := data.error }

/-- getAdapter in src/lib/transcription/manager.ts returns an adapter exactly
when transcription is enabled, the configured service is assemblyai and the
API key is a truthy string. -/
def getAdapterAvailable (enabled : Bool) (service : String) (apiKey : String) : Bool :=
  enabled && (service = "assemblyai") && (apiKey ≠ "")

/-- The first store write of TranscriptionManager.transcribe
(src/lib/transcription/manager.ts): status processing, service name and
startedAt now; the written object has no other fields, and the store replaces
the transcription object wholesale, so all other fields become undefined. -/
def initialWrite (service : String) (now : Nat) : TranscriptionData :=
  { status := .processing, service := service, startedAt := some now }

/-- The second store write of TranscriptionManager.transcribe: the submit
result is written with service, a fresh startedAt, and completedAt exactly
when the result status is completed. -/
def resultWrite (service : String) (r : TranscriptionResult) (now : Nat) : TranscriptionData :=
  { status := r.status
    text := r.text
    error := r.error
    service := service
    jobId := r.jobId
    startedAt := some now
    completedAt := if r.status = .completed then some now else none }

/-- The write in the catch branch of TranscriptionManager.transcribe: only
status, error and service. -/
def transcribeCatchWrite (service : String) (msg : String) : TranscriptionData :=
  { status := .error, error := some msg, service := service }

/-- The merging write of TranscriptionManager.checkStatus and of each
iteration of pollUntilComplete: spread of the snapshot transcription, then
status, text (with fallback to the snapshot text), error, and completedAt
exactly when the new status is completed. -/
def mergeWrite (t : TranscriptionData) (r : TranscriptionStatusResult) (now : Nat) :
    TranscriptionData :=
  { t with
    status := r.status
    text := textOr r.text t.text
    error := r.error
    completedAt := if r.status = .completed then some now else none }

/-- The error-finalizing write shared by the polling catch branch, the polling
timeout, resumePolling timeout, clearTimedOutTranscriptions and
clearAllInProgressTranscriptions: spread of the snapshot transcription with
status error and the given message. -/
def errWrite (t : TranscriptionData) (msg : String) : TranscriptionData :=
  { t with status := .error, error := some msg }

/-- One observable step of a manager operation: a store write of a full
transcription object, or one adapter checkStatus network call (poll i is the
i-th attempt of a polling loop). -/
inductive ManagerEvent
  | write (t : TranscriptionData)
  | poll (attempt : Nat)
deriving DecidableEq, Repr

/-- Whether an event is an adapter checkStatus call. -/
def isPoll : ManagerEvent → Bool
  | .poll _ => true
  | .write _ => false

/-- Whether an event writes a transcription with the given status. -/
def writesStatus (s : TranscriptionStatus) : ManagerEvent → Bool
  | .write t => t.status = s
  | .poll _ => false

/-- The stored transcription after a trace of events, starting from init:
every write replaces the stored transcription object wholesale
(recordings.update spreads only at the Recording level). -/
def storedAfter (init : Option TranscriptionData) : List ManagerEvent → Option TranscriptionData
  | [] => init
  | .write t :: es => storedAfter (some t) es
  | .poll _ :: es => storedAfter init es

/-- The status of a stored record, if the record has a transcription. -/
def statusOf (r : Option TranscriptionData) : Option TranscriptionStatus :=
  r.map (fun t => t.status)

/-- The while loop of TranscriptionManager.pollUntilComplete. snap is the
transcription of the recording argument (the code reads
recording.transcription throughout the loop, never the current store state);
resp gives each attempt of adapter.checkStatus as a result or a throw; clock
gives the Date value of each iteration; i is the current attempt index and k
the remaining attempts out of maxAttempts = 120. Each iteration polls once,
writes the merged result, returns on a terminal status, finalizes with the
caught message on a throw, and after the last attempt finalizes with the
polling-timed-out error. -/
def pollUntilCompleteAux (snap : TranscriptionData)
    (resp : Nat → Except (Option String) TranscriptionStatusResult)
    (clock : Nat → Nat) : Nat → Nat → List ManagerEvent
  | _, 0 => [.write (errWrite snap "Transcription polling timed out")]
  | i, k + 1 =>
    .poll i ::
      match resp i with
      | .error e => [.write (errWrite snap (jsErrMessage e "Failed to check status"))]
      | .ok r =>
        .write (mergeWrite snap r (clock i)) ::
          if r.status = .completed ∨ r.status = .error then []
          else pollUntilCompleteAux snap resp clock (i + 1) k

/-- TranscriptionManager.pollUntilComplete: returns with no event when no
adapter is available or the recording has no transcription or no truthy
jobId; otherwise runs the loop with attempts = 0 and maxAttempts = 120. -/
def pollUntilComplete (adapterOK : Bool) (rec : Option TranscriptionData)
    (resp : Nat → Except (Option String) TranscriptionStatusResult)
    (clock : Nat → Nat) : List ManagerEvent :=
  match rec with
  | none => []
  | some t =>
    if adapterOK && strTruthy t.jobId then pollUntilCompleteAux t resp clock 0 120
    else []

/-- TranscriptionManager.transcribe: with no adapter it returns without
touching the record; otherwise it writes processing immediately, then writes
the submit result, and when the result status is processing with a truthy
jobId it continues with pollUntilComplete on the just-written record (the
code re-reads the updated recording from the store before polling). -/
def transcribeEvents (adapterOK : Bool) (serviceName : String)
    (result : TranscriptionResult) (t1 t2 : Nat)
    (resp : Nat → Except (Option String) TranscriptionStatusResult)
    (clock : Nat → Nat) : List ManagerEvent :=
  if adapterOK then
    .write (initialWrite serviceName t1) ::
    .write (resultWrite serviceName result t2) ::
      (if result.status = .processing ∧ strTruthy result.jobId then
        pollUntilComplete adapterOK (some (resultWrite serviceName result t2)) resp clock
      else [])
  else []

/-- TranscriptionManager.checkStatus: requires an adapter and a truthy jobId;
one adapter call, then the merging write on success; a throw after the call
produces no write (only a console error). -/
def checkStatusEvents (adapterOK : Bool) (rec : Option TranscriptionData)
    (resp : Except (Option String) TranscriptionStatusResult) (now : Nat) :
    List ManagerEvent :=
  if adapterOK then
    match rec with
    | none => []
    | some t =>
      if strTruthy t.jobId then
        match resp with
        | .ok r => [.poll 0, .write (mergeWrite t r now)]
        | .error _ => [.poll 0]
      else []
  else []

/-- TranscriptionManager.resumePolling: returns with no event unless the
stored status is processing or pending and the jobId is truthy; if startedAt
is present and more than 10 minutes (600000 ms) old, finalizes the job as
timed out with no network call; otherwise continues with pollUntilComplete. -/
def resumePolling (adapterOK : Bool) (rec : Option TranscriptionData) (nowMs : Nat)
    (resp : Nat → Except (Option String) TranscriptionStatusResult)
    (clock : Nat → Nat) : List ManagerEvent :=
  match rec with
  | none => []
  | some t =>
    if t.status ≠ .processing ∧ t.status ≠ .pending then []
    else if strTruthy t.jobId = false then []
    else
      match t.startedAt with
      | some s =>
        if nowMs - s > 600000 then
          [.write (errWrite t "Transcription timed out (10 minutes)")]
        else pollUntilComplete adapterOK (some t) resp clock
      | none => pollUntilComplete adapterOK (some t) resp clock

/-- Whether a transcription is in progress: status processing or pending. -/
def inProgress (t : TranscriptionData) : Bool :=
  t.status = .processing || t.status = .pending

/-- Whether a stored record has an in-progress transcription. -/
def recInProgress : Option TranscriptionData → Bool
  | none => false
  | some t => inProgress t

/-- TranscriptionManager.clearAllInProgressTranscriptions: over the list of
stored records (each given by its transcription field), finalize every
in-progress transcription as error with message Cleared by user, leave every
other record untouched, and count the mutated records. -/
def clearAllInProgressTranscriptions :
    List (Option TranscriptionData) → List (Option TranscriptionData) × Nat
  | [] => ([], 0)
  | none :: rs =>
    let p := clearAllInProgressTranscriptions rs
    (none :: p.1, p.2)
  | some t :: rs =>
    let p := clearAllInProgressTranscriptions rs
    if inProgress t then (some (errWrite t "Cleared by user") :: p.1, p.2 + 1)
    else (some t :: p.1, p.2)

/-- TranscriptionManager.clearTimedOutTranscriptions: finalize every
in-progress transcription whose startedAt is present and more than 10 minutes
old, leave everything else untouched, and count the mutated records. -/
def clearTimedOutTranscriptions (nowMs : Nat) :
    List (Option TranscriptionData) → List (Option TranscriptionData) × Nat
  | [] => ([], 0)
  | none :: rs =>
    let p := clearTimedOutTranscriptions nowMs rs
    (none :: p.1, p.2)
  | some t :: rs =>
    let p := clearTimedOutTranscriptions nowMs rs
    match t.startedAt with
    | some s =>
      if inProgress t && (nowMs - s > 600000) then
        (some (errWrite t "Cleared - timed out") :: p.1, p.2 + 1)
      else (some t :: p.1, p.2)
    | none => (some t :: p.1, p.2)

/-- Following the words of claim C8 (segments ordered by utterance start
time): insert one utterance into a list sorted by start. -/
def insertByStart (u : AssemblyAIUtterance) :
    List AssemblyAIUtterance → List AssemblyAIUtterance
  | [] => [u]
  | v :: vs => if u.start ≤ v.start then u :: v :: vs else v :: insertByStart u vs

/-- Following the words of claim C8: the utterances sorted by start time. -/
def sortByStart : List AssemblyAIUtterance → List AssemblyAIUtterance
  | [] => []
  | u :: us => insertByStart u (sortByStart us)

/-- Following the words of claim C8: the rendering the claim describes, with
segments ordered by utterance start time. -/
def formatUtterancesByStart (us : List AssemblyAIUtterance) : String :=
  String.intercalate "\n" ((sortByStart us).map formatUtterance)

/-- The specification sentence for the timestamp format, written from the
spec words alone: floor-to-second truncation of the millisecond input,
rendered H:MM:SS when at least one hour and M:SS otherwise. -/
def formatTimestampSpec (ms : Nat) : String :=
  let s := ms / 1000
  if s ≥ 3600 then
    Nat.repr (s / 3600) ++ ":" ++ padStart2 (Nat.repr (s / 60 % 60)) ++ ":"
      ++ padStart2 (Nat.repr (s % 60))
  else
    Nat.repr (s / 60) ++ ":" ++ padStart2 (Nat.repr (s % 60))

/-- A concrete utterance list in which the provider order disagrees with the
start-time order. -/
def exUtterances : List AssemblyAIUtterance :=
  [{ speaker := "A", text := "first spoken", confidence := 0.9, start := 5000, finish := 6000 },
   { speaker := "B", text := "second spoken", confidence := 0.9, start := 1000, finish := 2000 }]

/-- C7: the adapter status mapping is total on provider status strings:
queued and processing map to processing, completed to completed, error to
error, and every other string (such as banana) maps to pending, never to
error. -/
theorem c7_mapStatus_total :
    mapStatus "queued" = .processing ∧
    mapStatus "processing" = .processing ∧
    mapStatus "completed" = .completed ∧
    mapStatus "error" = .error ∧
    mapStatus "banana" = .pending ∧
    ∀ s, s ≠ "queued" → s ≠ "processing" → s ≠ "completed" → s ≠ "error" →
      mapStatus s = .pending ∧ mapStatus s ≠ .error := by
  refine ⟨by decide, by decide, by decide, by decide, by decide, ?_⟩
  intro s h1 h2 h3 h4
  unfold mapStatus
  rw [if_neg h3, if_neg h4, if_neg h1, if_neg h2]
  exact ⟨rfl, by decide⟩

/-- Witness for C7 at the concrete unknown status banana. -/
theorem c7_mapStatus_total_witness :
    mapStatus "banana" = .pending ∧ mapStatus "banana" ≠ .error :=
  c7_mapStatus_total.2.2.2.2.2 "banana" (by decide) (by decide) (by decide) (by decide)

/-- Counterexample to C8: on a provider list whose order disagrees with
start-time order, the adapter renders the segments in provider order, not
ordered by utterance start time as the claim states; the rendering the claim
describes (formatUtterancesByStart) differs at this input. -/
theorem c8_counterexample :
    formatUtterances exUtterances ≠ formatUtterancesByStart exUtterances ∧
    formatUtterances exUtterances =
      "[0:05 - 0:06] Speaker A:\nfirst spoken\n\n[0:01 - 0:02] Speaker B:\nsecond spoken\n" ∧
    formatUtterancesByStart exUtterances =
      "[0:01 - 0:02] Speaker B:\nsecond spoken\n\n[0:05 - 0:06] Speaker A:\nfirst spoken\n" := by
  refine ⟨by decide, by decide, by decide⟩

/-- C8 amended: the adapter renders the segments in the order returned by the
provider (not sorted by start time), each prefixed with a header of the shape
open bracket, start, space hyphen space, end, close bracket, Speaker, label,
colon, where start and end are formatted as H:MM:SS when at least one hour
and M:SS otherwise using floor-to-second truncation of the millisecond
inputs (0 ms to 0:00, 65000 ms to 1:05, 3661000 ms to 1:01:01). -/
theorem c8_amended_formatting :
    (∀ ms, formatTimestamp ms = formatTimestampSpec ms) ∧
    formatTimestamp 0 = "0:00" ∧
    formatTimestamp 65000 = "1:05" ∧
    formatTimestamp 3661000 = "1:01:01" ∧
    (∀ us, formatUtterances us =
      String.intercalate "\n" (us.map (fun u =>
        "[" ++ formatTimestampSpec u.start ++ " - " ++ formatTimestampSpec u.finish
          ++ "] Speaker " ++ u.speaker ++ ":\n" ++ u.text ++ "\n"))) := by
  have hts : ∀ ms, formatTimestamp ms = formatTimestampSpec ms := by
    intro ms
    unfold formatTimestamp formatTimestampSpec
    by_cases h : ms / 1000 ≥ 3600
    · have hh : ms / 1000 / 3600 > 0 := by omega
      have hm : ms / 1000 % 3600 / 60 = ms / 1000 / 60 % 60 := by omega
      simp only [hh, if_pos, if_true, h, hm]
    · have hh : ¬ ms / 1000 / 3600 > 0 := by omega
      have hm : ms / 1000 % 3600 / 60 = ms / 1000 / 60 := by omega
      simp only [hh, if_false, if_neg h, hm]
  refine ⟨hts, by decide, by decide, by decide, ?_⟩
  intro us
  unfold formatUtterances
  congr 1
  apply List.map_congr_left
  intro u _
  unfold formatUtterance
  rw [hts u.start, hts u.finish]

/-- C9: the adapter submit operation is a total function of the outcomes of
its two network steps (it never propagates a throw): when upload and submit
both succeed the result is the jobId with status processing and no error;
on any failure the result has status error, a message and no jobId, the
message being the thrown message of the failing step or the generic
Transcription failed. -/
theorem c9_adapter_submit_total (upload : Except (Option String) String)
    (create : String → Except (Option String) String) :
    (((adapterTranscribe upload create).status = .processing ∧
      (adapterTranscribe upload create).jobId.isSome = true ∧
      (adapterTranscribe upload create).error = none) ∨
     ((adapterTranscribe upload create).status = .error ∧
      (adapterTranscribe upload create).jobId = none ∧
      (adapterTranscribe upload create).error.isSome = true)) ∧
    ((adapterTranscribe upload create).status = .processing ↔
      ∃ u i, upload = Except.ok u ∧ create u = Except.ok i) ∧
    (∀ e, upload = Except.error e →
      adapterTranscribe upload create =
        { status := .error, error := some (jsErrMessage e "Transcription failed") }) ∧
    (∀ u e, upload = Except.ok u → create u = Except.error e →
      adapterTranscribe upload create =
        { status := .error, error := some (jsErrMessage e "Transcription failed") }) ∧
    (∀ u i, upload = Except.ok u → create u = Except.ok i →
      adapterTranscribe upload create = { jobId := some i, status := .processing }) := by
  rcases upload with e | u
  · refine ⟨Or.inr ⟨rfl, rfl, rfl⟩, ?_, ?_, ?_, ?_⟩
    · simp [adapterTranscribe]
    · intro e' he; cases he; rfl
    · intro u e' he; cases he
    · intro u i he; cases he
  · rcases hc : create u with e | i
    · have hred : adapterTranscribe (Except.ok u) create =
          { status := .error, error := some (jsErrMessage e "Transcription failed") } := by
        simp [adapterTranscribe, hc]
      refine ⟨Or.inr (by rw [hred]; exact ⟨rfl, rfl, rfl⟩), ?_, ?_, ?_, ?_⟩
      · rw [hred]
        constructor
        · intro h; simp at h
        · rintro ⟨u', i, hu, hi⟩
          cases hu
          rw [hc] at hi
          cases hi
      · intro e' he; cases he
      · intro u' e' hu he
        cases hu
        rw [hc] at he
        cases he
        exact hred
      · intro u' i hu hi
        cases hu
        rw [hc] at hi
        cases hi
    · have hred : adapterTranscribe (Except.ok u) create =
          { jobId := some i, status := .processing } := by
        simp [adapterTranscribe, hc]
      refine ⟨Or.inl (by rw [hred]; exact ⟨rfl, rfl, rfl⟩), ?_, ?_, ?_, ?_⟩
      · rw [hred]
        constructor
        · intro _; exact ⟨u, i, rfl, hc⟩
        · intro _; rfl
      · intro e' he; cases he
      · intro u' e' hu he
        cases hu
        rw [hc] at he
        cases he
      · intro u' i' hu hi
        cases hu
        rw [hc] at hi
        cases hi
        exact hred

/-- Witness for C9 at a concrete failing upload and a concrete succeeding
pair. -/
theorem c9_adapter_submit_total_witness :
    adapterTranscribe (Except.error (some "network down")) (fun _ => Except.ok "id1") =
      { status := .error, error := some (jsErrMessage (some "network down") "Transcription failed") } ∧
    adapterTranscribe (Except.ok "u1") (fun _ => Except.ok "id1") =
      { jobId := some "id1", status := .processing } :=
  ⟨(c9_adapter_submit_total (Except.error (some "network down"))
      (fun _ => Except.ok "id1")).2.2.1 (some "network down") rfl,
   (c9_adapter_submit_total (Except.ok "u1")
      (fun _ => Except.ok "id1")).2.2.2.2 "u1" "id1" rfl rfl⟩

/-- The stored transcription states of one recording reachable through the
manager operations. Each constructor is one store write the manager can
perform, applied to a reachable snapshot, with the guard the code checks
before that write:
- init: a fresh recording has no transcription;
- transcribeStart, transcribeResult, transcribeCatch: the three writes of
  transcribe (also covering retryTranscription, which is a direct call of
  transcribe), allowed from any prior state since retry restarts the lifecycle;
- merge: the merging write of checkStatus and of a polling-loop iteration,
  guarded by the truthy jobId both call sites check;
- errSpread: the spread-and-finalize error write of the polling catch branch,
  the polling timeout, the resumePolling timeout,
  clearTimedOutTranscriptions and clearAllInProgressTranscriptions, all of
  which only run against a snapshot whose status is processing or pending
  (resumePolling and the two clear operations check it explicitly; the
  polling loop is entered only from transcribe with a just-written processing
  record or from resumePolling after the same check). -/
inductive Reach : Option TranscriptionData → Prop
  | init : Reach none
  | transcribeStart (s : Option TranscriptionData) (name : String) (t : Nat) :
      Reach s → Reach (some (initialWrite name t))
  | transcribeResult (s : Option TranscriptionData) (name : String)
      (r : TranscriptionResult) (t : Nat) :
      Reach s → Reach (some (resultWrite name r t))
  | transcribeCatch (s : Option TranscriptionData) (name msg : String) :
      Reach s → Reach (some (transcribeCatchWrite name msg))
  | merge (t : TranscriptionData) (r : TranscriptionStatusResult) (now : Nat) :
      Reach (some t) → strTruthy t.jobId = true → Reach (some (mergeWrite t r now))
  | errSpread (t : TranscriptionData) (msg : String) :
      Reach (some t) → (t.status = .processing ∨ t.status = .pending) →
      Reach (some (errWrite t msg))

/-- C1: in every stored transcription reachable through the manager
operations (transcribe, checkStatus, resumePolling, the polling loop,
clearAllInProgressTranscriptions, clearTimedOutTranscriptions), completedAt
is set if and only if the status is completed. -/
theorem c1_completedAt_iff_completed :
    ∀ s, Reach s → ∀ t, s = some t →
      (t.completedAt.isSome = true ↔ t.status = TranscriptionStatus.completed) := by
  intro s hs
  induction hs with
  | init =>
    intro t ht
    cases ht
  | transcribeStart s name tn _ _ =>
    intro t ht
    cases ht
    simp [initialWrite]
  | transcribeResult s name r tn _ _ =>
    intro t ht
    cases ht
    by_cases hr : r.status = .completed <;> simp [resultWrite, hr]
  | transcribeCatch s name msg _ _ =>
    intro t ht
    cases ht
    simp [transcribeCatchWrite]
  | merge t r now _ _ _ =>
    intro t' ht
    cases ht
    by_cases hr : r.status = .completed <;> simp [mergeWrite, hr]
  | errSpread t msg _ hguard ih =>
    intro t' ht
    cases ht
    have hiff := ih t rfl
    have hnone : t.completedAt.isSome = false := by
      rcases hguard with h | h <;>
        · rw [h] at hiff
          simpa using hiff
    simp [errWrite, hnone]

/-- Witness for C1 at a concrete reachable state: the record right after the
initial write of transcribe. -/
theorem c1_completedAt_iff_completed_witness :
    ((initialWrite "AssemblyAI" 0).completedAt.isSome = true ↔
      (initialWrite "AssemblyAI" 0).status = TranscriptionStatus.completed) :=
  c1_completedAt_iff_completed (some (initialWrite "AssemblyAI" 0))
    (Reach.transcribeStart none "AssemblyAI" 0 Reach.init)
    (initialWrite "AssemblyAI" 0) rfl

/-- Every write of a polling loop run against a reachable in-progress
snapshot with a truthy jobId lands in Reach: the loop writes are merging
writes of the snapshot or spread-and-finalize error writes of the snapshot. -/
theorem pollUntilCompleteAux_writes_reach (snap : TranscriptionData)
    (hR : Reach (some snap)) (hs : snap.status = .processing ∨ snap.status = .pending)
    (hj : strTruthy snap.jobId = true)
    (resp : Nat → Except (Option String) TranscriptionStatusResult)
    (clock : Nat → Nat) :
    ∀ k i w, ManagerEvent.write w ∈ pollUntilCompleteAux snap resp clock i k →
      Reach (some w) := by
  intro k
  induction k with
  | zero =>
    intro i w hw
    simp only [pollUntilCompleteAux, List.mem_singleton] at hw
    cases hw
    exact Reach.errSpread snap _ hR hs
  | succ k ih =>
    intro i w hw
    simp only [pollUntilCompleteAux, List.mem_cons] at hw
    rcases hw with hw | hw
    · cases hw
    · rcases hresp : resp i with e | r
      · rw [hresp] at hw
        simp only [List.mem_singleton] at hw
        cases hw
        exact Reach.errSpread snap _ hR hs
      · rw [hresp] at hw
        simp only [List.mem_cons] at hw
        rcases hw with hw | hw
        · cases hw
          exact Reach.merge snap r (clock i) hR hj
        · by_cases hterm : r.status = .completed ∨ r.status = .error
        
          · rw [if_pos hterm] at hw
            cases hw
          · rw [if_neg hterm] at hw
            exact ih (i + 1) w hw

/-- A poll response that is a result with a non-terminal status (neither
completed nor error). -/
def isNonTerminalResp (x : Except (Option String) TranscriptionStatusResult) : Prop :=
  ∃ r, x = Except.ok r ∧ r.status ≠ .completed ∧ r.status ≠ .error

/-- The polling loop makes at most k adapter calls when k attempts remain. -/
theorem pollUntilCompleteAux_countP_le (snap : TranscriptionData)
    (resp : Nat → Except (Option String) TranscriptionStatusResult)
    (clock : Nat → Nat) :
    ∀ k i, (pollUntilCompleteAux snap resp clock i k).countP isPoll ≤ k := by
  intro k
  induction k with
  | zero =>
    intro i
    simp [pollUntilCompleteAux, isPoll, List.countP_cons]
  | succ k ih =>
    intro i
    simp only [pollUntilCompleteAux, List.countP_cons]
    rcases resp i with e | r
    · simp [isPoll, List.countP_cons]
    · simp only [List.countP_cons]
      by_cases hterm : r.status = .completed ∨ r.status = .error
      · rw [if_pos hterm]
        simp [isPoll]
      · rw [if_neg hterm]
        have := ih (i + 1)
        simp [isPoll]
        omega

/-- When every remaining response is non-terminal, the loop polls exactly k
times and the final stored transcription is the polling-timed-out error
write of the snapshot, whatever the stored state was before. -/
theorem pollUntilCompleteAux_exhausts (snap : TranscriptionData)
    (resp : Nat → Except (Option String) TranscriptionStatusResult)
    (clock : Nat → Nat) :
    ∀ k i, (∀ j, j < k → isNonTerminalResp (resp (i + j))) →
      (pollUntilCompleteAux snap resp clock i k).countP isPoll = k ∧
      ∀ s, storedAfter s (pollUntilCompleteAux snap resp clock i k) =
        some (errWrite snap "Transcription polling timed out") := by
  intro k
  induction k with
  | zero =>
    intro i _
    refine ⟨by simp [pollUntilCompleteAux, isPoll, List.countP_cons], ?_⟩
    intro s
    simp [pollUntilCompleteAux, storedAfter]
  | succ k ih =>
    intro i hnt
    obtain ⟨r, hr, hc, he⟩ := hnt 0 (Nat.succ_pos k)
    rw [Nat.add_zero] at hr
    have hterm : ¬(r.status = .completed ∨ r.status = .error) := by
      rintro (h | h) <;> [exact hc h; exact he h]
    have hshift : ∀ j, j < k → isNonTerminalResp (resp (i + 1 + j)) := by
      intro j hj
      have : i + 1 + j = i + (j + 1) := by omega
      rw [this]
      exact hnt (j + 1) (by omega)
    obtain ⟨ihc, ihs⟩ := ih (i + 1) hshift
    constructor
    · simp only [pollUntilCompleteAux, hr, List.countP_cons, if_neg hterm]
      simp [isPoll]
      omega
    · intro s
      simp only [pollUntilCompleteAux, hr, if_neg hterm, storedAfter]
      exact ihs (some (mergeWrite snap r (clock i)))

/-- C3: the polling loop always terminates (it is a total function of its
inputs); it makes at most 120 adapter calls, and when all 120 responses are
non-terminal it polls exactly 120 times and finalizes the stored job as an
error with the message Transcription polling timed out. -/
theorem c3_polling_bounded (snap : TranscriptionData)
    (resp : Nat → Except (Option String) TranscriptionStatusResult)
    (clock : Nat → Nat)
    (h : ∀ j, j < 120 → isNonTerminalResp (resp j)) :
    (pollUntilCompleteAux snap resp clock 0 120).countP isPoll = 120 ∧
    storedAfter (some snap) (pollUntilCompleteAux snap resp clock 0 120) =
      some (errWrite snap "Transcription polling timed out") ∧
    (errWrite snap "Transcription polling timed out").status = .error ∧
    (errWrite snap "Transcription polling timed out").error =
      some "Transcription polling timed out" ∧
    ∀ resp2, (pollUntilCompleteAux snap resp2 clock 0 120).countP isPoll ≤ 120 := by
  have h0 : ∀ j, j < 120 → isNonTerminalResp (resp (0 + j)) := by
    intro j hj
    rw [Nat.zero_add]
    exact h j hj
  obtain ⟨hc, hs⟩ := pollUntilCompleteAux_exhausts snap resp clock 120 0 h0
  exact ⟨hc, hs (some snap), rfl, rfl, fun resp2 =>
    pollUntilCompleteAux_countP_le snap resp2 clock 120 0⟩

/-- A concrete non-terminal poll result. -/
def processingResult : TranscriptionStatusResult := { status := .processing }

/-- A concrete snapshot for witnesses: the record right after a successful
submission. -/
def witnessSnap : TranscriptionData :=
  resultWrite "AssemblyAI" { jobId := some "j1", status := .processing } 0

/-- Witness for C3: a run in which the provider answers processing on all
120 attempts. -/
theorem c3_polling_bounded_witness :
    (pollUntilCompleteAux witnessSnap (fun _ => Except.ok processingResult)
        (fun _ => 0) 0 120).countP isPoll = 120 ∧
    storedAfter (some witnessSnap)
        (pollUntilCompleteAux witnessSnap (fun _ => Except.ok processingResult)
          (fun _ => 0) 0 120) =
      some (errWrite witnessSnap "Transcription polling timed out") ∧
    (errWrite witnessSnap "Transcription polling timed out").status = .error ∧
    (errWrite witnessSnap "Transcription polling timed out").error =
      some "Transcription polling timed out" ∧
    ∀ resp2, (pollUntilCompleteAux witnessSnap resp2 (fun _ => 0) 0 120).countP isPoll ≤ 120 :=
  c3_polling_bounded witnessSnap (fun _ => Except.ok processingResult) (fun _ => 0)
    (fun j _ => ⟨processingResult, rfl, by decide, by decide⟩)

/-- Whether the first list is an initial segment of the second. -/
def headMatches : List Char → List Char → Bool
  | [], _ => true
  | _ :: _, [] => false
  | a :: as, b :: bs => (a = b) && headMatches as bs

/-- Whether the needle occurs contiguously somewhere in the haystack. -/
def charsContain (needle : List Char) : List Char → Bool
  | [] => needle.isEmpty
  | c :: cs => headMatches needle (c :: cs) || charsContain needle cs

/-- Substring containment on strings: the needle occurs in the haystack. -/
def strContainsSub (hay needle : String) : Bool :=
  charsContain needle.data hay.data

/-- C4: for a recording whose transcription is processing or pending, with a
truthy jobId and a startedAt more than 10 minutes (600000 ms) before the
current time, resumePolling performs exactly one store write: the snapshot
finalized as error with the message Transcription timed out (10 minutes),
which contains the words timed out; it makes no adapter call. -/
theorem c4_resume_timeout (adapterOK : Bool) (t : TranscriptionData)
    (nowMs s : Nat)
    (resp : Nat → Except (Option String) TranscriptionStatusResult)
    (clock : Nat → Nat)
    (h1 : t.status = .processing ∨ t.status = .pending)
    (h2 : strTruthy t.jobId = true)
    (h3 : t.startedAt = some s)
    (h4 : s + 600000 < nowMs) :
    resumePolling adapterOK (some t) nowMs resp clock =
      [ManagerEvent.write (errWrite t "Transcription timed out (10 minutes)")] ∧
    (errWrite t "Transcription timed out (10 minutes)").status = .error ∧
    (errWrite t "Transcription timed out (10 minutes)").error =
      some "Transcription timed out (10 minutes)" ∧
    strContainsSub "Transcription timed out (10 minutes)" "timed out" = true ∧
    (resumePolling adapterOK (some t) nowMs resp clock).countP isPoll = 0 := by
  have hcond : ¬(t.status ≠ .processing ∧ t.status ≠ .pending) := by
    rcases h1 with h | h <;> simp [h]
  have htrace : resumePolling adapterOK (some t) nowMs resp clock =
      [ManagerEvent.write (errWrite t "Transcription timed out (10 minutes)")] := by
    simp only [resumePolling, if_neg hcond, h2, h3]
    rw [if_neg (by simp)]
    rw [if_pos (by omega)]
  refine ⟨htrace, rfl, rfl, by decide, ?_⟩
  rw [htrace]
  simp [isPoll]

/-- A concrete in-progress transcription for the resumePolling witnesses. -/
def staleSnap : TranscriptionData :=
  { status := .processing, service := "AssemblyAI", jobId := some "j1", startedAt := some 0 }

/-- Witness for C4: a job started at time 0 resumed at 11 minutes (660000 ms). -/
theorem c4_resume_timeout_witness :
    resumePolling true (some staleSnap) 660000
        (fun _ => Except.ok processingResult) (fun _ => 0) =
      [ManagerEvent.write (errWrite staleSnap "Transcription timed out (10 minutes)")] ∧
    (errWrite staleSnap "Transcription timed out (10 minutes)").status = .error ∧
    (errWrite staleSnap "Transcription timed out (10 minutes)").error =
      some "Transcription timed out (10 minutes)" ∧
    strContainsSub "Transcription timed out (10 minutes)" "timed out" = true ∧
    (resumePolling true (some staleSnap) 660000
        (fun _ => Except.ok processingResult) (fun _ => 0)).countP isPoll = 0 :=
  c4_resume_timeout true staleSnap 660000 0
    (fun _ => Except.ok processingResult) (fun _ => 0)
    (Or.inl rfl) (by decide) rfl (by omega)

/-- The polling loop with at least one remaining attempt starts with an
adapter call, never with a write. -/
theorem pollUntilCompleteAux_head (snap : TranscriptionData)
    (resp : Nat → Except (Option String) TranscriptionStatusResult)
    (clock : Nat → Nat) (i k : Nat) :
    (pollUntilCompleteAux snap resp clock i (k + 1)).head? = some (.poll i) := by
  simp only [pollUntilCompleteAux]
  rcases resp i with e | r <;> rfl

/-- C10: for a recording whose transcription is processing or pending, with a
truthy jobId but no startedAt, resumePolling skips the wall-clock timeout
check for every current time (its trace does not depend on the clock and
equals the polling-loop trace), and with an adapter available the first event
is the first adapter call, not a timed-out write. -/
theorem c10_resume_no_startedAt (t : TranscriptionData) (nowMs : Nat)
    (resp : Nat → Except (Option String) TranscriptionStatusResult)
    (clock : Nat → Nat)
    (h1 : t.status = .processing ∨ t.status = .pending)
    (h2 : strTruthy t.jobId = true)
    (h3 : t.startedAt = none) :
    (∀ adapterOK, resumePolling adapterOK (some t) nowMs resp clock =
      pollUntilComplete adapterOK (some t) resp clock) ∧
    (∀ adapterOK nowMs2, resumePolling adapterOK (some t) nowMs2 resp clock =
      resumePolling adapterOK (some t) nowMs resp clock) ∧
    resumePolling true (some t) nowMs resp clock =
      pollUntilCompleteAux t resp clock 0 120 ∧
    (resumePolling true (some t) nowMs resp clock).head? = some (.poll 0) := by
  have hcond : ¬(t.status ≠ .processing ∧ t.status ≠ .pending) := by
    rcases h1 with h | h <;> simp [h]
  have htrace : ∀ adapterOK nowMs2, resumePolling adapterOK (some t) nowMs2 resp clock =
      pollUntilComplete adapterOK (some t) resp clock := by
    intro adapterOK nowMs2
    simp only [resumePolling, if_neg hcond, h3]
    rw [if_neg (by simp [h2])]
  have hpoll : pollUntilComplete true (some t) resp clock =
      pollUntilCompleteAux t resp clock 0 120 := by
    simp only [pollUntilComplete, h2, Bool.and_self]
    rfl
  refine ⟨fun a => htrace a nowMs, fun a n2 => (htrace a n2).trans (htrace a nowMs).symm,
    (htrace true nowMs).trans hpoll, ?_⟩
  rw [(htrace true nowMs).trans hpoll]
  have h120 : (120 : Nat) = 119 + 1 := by norm_num
  rw [h120]
  exact pollUntilCompleteAux_head t resp clock 0 119

/-- A concrete in-progress transcription with no startedAt. -/
def noStartSnap : TranscriptionData :=
  { status := .pending, service := "AssemblyAI", jobId := some "j1" }

/-- Witness for C10 at a concrete record with no startedAt and an arbitrary
large current time. -/
theorem c10_resume_no_startedAt_witness :
    (∀ adapterOK, resumePolling adapterOK (some noStartSnap) 99999999
        (fun _ => Except.ok processingResult) (fun _ => 0) =
      pollUntilComplete adapterOK (some noStartSnap)
        (fun _ => Except.ok processingResult) (fun _ => 0)) ∧
    (∀ adapterOK nowMs2, resumePolling adapterOK (some noStartSnap) nowMs2
        (fun _ => Except.ok processingResult) (fun _ => 0) =
      resumePolling adapterOK (some noStartSnap) 99999999
        (fun _ => Except.ok processingResult) (fun _ => 0)) ∧
    resumePolling true (some noStartSnap) 99999999
        (fun _ => Except.ok processingResult) (fun _ => 0) =
      pollUntilCompleteAux noStartSnap (fun _ => Except.ok processingResult)
        (fun _ => 0) 0 120 ∧
    (resumePolling true (some noStartSnap) 99999999
        (fun _ => Except.ok processingResult) (fun _ => 0)).head? =
      some (.poll 0) :=
  c10_resume_no_startedAt noStartSnap 99999999
    (fun _ => Except.ok processingResult) (fun _ => 0)
    (Or.inr rfl) (by decide) rfl

/-- A concrete transcribe run whose upload request fails: the adapter submit
result for a thrown upload error. -/
def c2result : TranscriptionResult :=
  adapterTranscribe (Except.error (some "Upload failed: 500 Internal Server Error"))
    (fun _ => Except.ok "j1")

/-- The event trace of that transcribe run. -/
def c2events : List ManagerEvent :=
  transcribeEvents true "AssemblyAI" c2result 0 1
    (fun _ => Except.ok processingResult) (fun _ => 0)

/-- Counterexample to C2: in a transcribe run whose upload request fails, the
stored transcription does take the value processing during the operation
(the first write of transcribe stores status processing before the submit
result is known), even though the job ends with status error and the
provider-reported message. -/
theorem c2_counterexample :
    c2events = [ManagerEvent.write (initialWrite "AssemblyAI" 0),
                ManagerEvent.write (resultWrite "AssemblyAI" c2result 1)] ∧
    (initialWrite "AssemblyAI" 0).status = .processing ∧
    storedAfter none [ManagerEvent.write (initialWrite "AssemblyAI" 0)] =
      some (initialWrite "AssemblyAI" 0) ∧
    c2events.any (writesStatus .processing) = true ∧
    statusOf (storedAfter none c2events) = some .error ∧
    c2result.error = some "Upload failed: 500 Internal Server Error" := by
  refine ⟨by decide, rfl, rfl, by decide, by decide, by decide⟩

/-- The hypothesis of claim C2: the upload request or the transcript request
of the adapter submit operation fails. -/
def uploadOrSubmitFails (upload : Except (Option String) String)
    (create : String → Except (Option String) String) : Prop :=
  (∃ e, upload = Except.error e) ∨
  (∃ u e, upload = Except.ok u ∧ create u = Except.error e)

/-- C2 amended: when the upload or submit request fails, the stored job ends
with status error carrying the provider-reported or generic message, no
polling loop starts (no adapter poll call is made), and the operation
performs exactly two writes; however the first of them stores status
processing, so the stored status does transiently take the value processing
before the submit result replaces it. -/
theorem c2_amended_submission_error (serviceName : String)
    (upload : Except (Option String) String)
    (create : String → Except (Option String) String) (t1 t2 : Nat)
    (resp : Nat → Except (Option String) TranscriptionStatusResult)
    (clock : Nat → Nat)
    (h : uploadOrSubmitFails upload create) :
    transcribeEvents true serviceName (adapterTranscribe upload create) t1 t2 resp clock =
      [ManagerEvent.write (initialWrite serviceName t1),
       ManagerEvent.write (resultWrite serviceName (adapterTranscribe upload create) t2)] ∧
    statusOf (storedAfter none
      (transcribeEvents true serviceName (adapterTranscribe upload create) t1 t2 resp clock)) =
      some .error ∧
    (resultWrite serviceName (adapterTranscribe upload create) t2).error =
      (adapterTranscribe upload create).error ∧
    (adapterTranscribe upload create).error.isSome = true ∧
    (transcribeEvents true serviceName (adapterTranscribe upload create) t1 t2 resp clock).countP
      isPoll = 0 ∧
    (initialWrite serviceName t1).status = .processing := by
  have herr : (adapterTranscribe upload create).status = .error ∧
      (adapterTranscribe upload create).error.isSome = true := by
    rcases h with ⟨e, he⟩ | ⟨u, e, hu, hc⟩
    · rw [he]
      exact ⟨rfl, rfl⟩
    · rw [hu]
      simp [adapterTranscribe, hc]
  have hguard : ¬((adapterTranscribe upload create).status = .processing ∧
      strTruthy (adapterTranscribe upload create).jobId = true) := by
    rintro ⟨hp, _⟩
    rw [herr.1] at hp
    cases hp
  have htrace : transcribeEvents true serviceName (adapterTranscribe upload create)
      t1 t2 resp clock =
      [ManagerEvent.write (initialWrite serviceName t1),
       ManagerEvent.write (resultWrite serviceName (adapterTranscribe upload create) t2)] := by
    simp only [transcribeEvents, if_pos rfl, if_neg hguard]
    rfl
  refine ⟨htrace, ?_, rfl, herr.2, ?_, rfl⟩
  · rw [htrace]
    simp [storedAfter, statusOf, resultWrite, herr.1]
  · rw [htrace]
    simp [isPoll]

/-- Witness for the amended C2 at a concrete failing upload. -/
theorem c2_amended_submission_error_witness :
    transcribeEvents true "AssemblyAI" c2result 0 1
        (fun _ => Except.ok processingResult) (fun _ => 0) =
      [ManagerEvent.write (initialWrite "AssemblyAI" 0),
       ManagerEvent.write (resultWrite "AssemblyAI" c2result 1)] ∧
    statusOf (storedAfter none (transcribeEvents true "AssemblyAI" c2result 0 1
        (fun _ => Except.ok processingResult) (fun _ => 0))) = some .error ∧
    (resultWrite "AssemblyAI" c2result 1).error = c2result.error ∧
    c2result.error.isSome = true ∧
    (transcribeEvents true "AssemblyAI" c2result 0 1
        (fun _ => Except.ok processingResult) (fun _ => 0)).countP isPoll = 0 ∧
    (initialWrite "AssemblyAI" 0).status = .processing :=
  c2_amended_submission_error "AssemblyAI"
    (Except.error (some "Upload failed: 500 Internal Server Error"))
    (fun _ => Except.ok "j1") 0 1
    (fun _ => Except.ok processingResult) (fun _ => 0)
    (Or.inl ⟨some "Upload failed: 500 Internal Server Error", rfl⟩)


/-- C5: clearAllInProgressTranscriptions relates the stored records to its
result pointwise: a record whose transcription is processing or pending is
replaced by the same transcription finalized as error with message Cleared
by user, every other record is returned unchanged, and the returned count is
exactly the number of in-progress records. -/
theorem c5_clear_all_in_progress (recs : List (Option TranscriptionData)) :
    List.Forall₂ (fun r r2 =>
        (recInProgress r = true →
          ∃ t, r = some t ∧ r2 = some (errWrite t "Cleared by user") ∧
            statusOf r2 = some .error) ∧
        (recInProgress r = false → r2 = r))
      recs (clearAllInProgressTranscriptions recs).1 ∧
    (clearAllInProgressTranscriptions recs).2 = recs.countP recInProgress := by
  induction recs with
  | nil =>
    exact ⟨List.Forall₂.nil, rfl⟩
  | cons r rs ih =>
    rcases r with _ | t
    · have hunf : clearAllInProgressTranscriptions (none :: rs) =
          (none :: (clearAllInProgressTranscriptions rs).1,
           (clearAllInProgressTranscriptions rs).2) := by
        simp [clearAllInProgressTranscriptions]
      rw [hunf]
      refine ⟨List.Forall₂.cons ⟨fun h => ?_, fun _ => rfl⟩ ih.1, ?_⟩
      · simp [recInProgress] at h
      · simp [List.countP_cons, recInProgress, ih.2]
    · by_cases hp : inProgress t = true
      · have hunf : clearAllInProgressTranscriptions (some t :: rs) =
            (some (errWrite t "Cleared by user") :: (clearAllInProgressTranscriptions rs).1,
             (clearAllInProgressTranscriptions rs).2 + 1) := by
          simp [clearAllInProgressTranscriptions, hp]
        rw [hunf]
        refine ⟨List.Forall₂.cons ⟨fun _ => ⟨t, rfl, rfl, rfl⟩, fun h => ?_⟩ ih.1, ?_⟩
        · rw [recInProgress, hp] at h
          cases h
        · simp [List.countP_cons, recInProgress, hp, ih.2]
      · have hp2 : inProgress t = false := by
          revert hp
          cases inProgress t <;> simp
        have hunf : clearAllInProgressTranscriptions (some t :: rs) =
            (some t :: (clearAllInProgressTranscriptions rs).1,
             (clearAllInProgressTranscriptions rs).2) := by
          simp [clearAllInProgressTranscriptions, hp2]
        rw [hunf]
        refine ⟨List.Forall₂.cons ⟨fun h => ?_, fun _ => rfl⟩ ih.1, ?_⟩
        · rw [recInProgress, hp2] at h
          cases h
        · simp [List.countP_cons, recInProgress, hp2, ih.2]

/-- Witness for C5 at a concrete store: one processing record, one record
with no transcription, one completed record. -/
theorem c5_clear_all_in_progress_witness :
    List.Forall₂ (fun r r2 =>
        (recInProgress r = true →
          ∃ t, r = some t ∧ r2 = some (errWrite t "Cleared by user") ∧
            statusOf r2 = some .error) ∧
        (recInProgress r = false → r2 = r))
      [some staleSnap, none, some (mergeWrite staleSnap { status := .completed } 7)]
      (clearAllInProgressTranscriptions
        [some staleSnap, none, some (mergeWrite staleSnap { status := .completed } 7)]).1 ∧
    (clearAllInProgressTranscriptions
      [some staleSnap, none, some (mergeWrite staleSnap { status := .completed } 7)]).2 =
      List.countP recInProgress
        [some staleSnap, none, some (mergeWrite staleSnap { status := .completed } 7)] :=
  c5_clear_all_in_progress
    [some staleSnap, none, some (mergeWrite staleSnap { status := .completed } 7)]

/-- The stored transcription right after a submission that returned jobId j1
with status processing: the snapshot the polling loop is started with. -/
def c6snap : TranscriptionData :=
  resultWrite "AssemblyAI" { jobId := some "j1", status := .processing } 5

/-- Poll responses for the C6 run: the first poll returns partial text while
still processing, the second returns completed with no text. -/
def c6resp : Nat → Except (Option String) TranscriptionStatusResult :=
  fun i => if i = 0 then Except.ok { status := .processing, text := some "partial transcript" }
           else Except.ok { status := .completed }

/-- Counterexample to C6: in a polling loop whose first poll persists text
and whose second poll carries no text, the second write does not preserve
the text persisted by the first write of the same loop: the written text
falls back to the loop-entry snapshot (which has no text) and becomes none,
while the first write had persisted the partial transcript. -/
theorem c6_counterexample :
    pollUntilCompleteAux c6snap c6resp (fun _ => 9) 0 120 =
      [ManagerEvent.poll 0,
       ManagerEvent.write
         (mergeWrite c6snap { status := .processing, text := some "partial transcript" } 9),
       ManagerEvent.poll 1,
       ManagerEvent.write (mergeWrite c6snap { status := .completed } 9)] ∧
    (mergeWrite c6snap { status := .processing, text := some "partial transcript" } 9).text =
      some "partial transcript" ∧
    (TranscriptionStatusResult.text { status := .completed }) = none ∧
    (mergeWrite c6snap { status := .completed } 9).text = none ∧
    storedAfter (some c6snap) (pollUntilCompleteAux c6snap c6resp (fun _ => 9) 0 120) =
      some (mergeWrite c6snap { status := .completed } 9) := by
  refine ⟨by decide, by decide, by decide, by decide, by decide⟩

/-- C6 amended: every update written after initial submission merges with
the record snapshot the operation was invoked with: it preserves that
snapshot's service and jobId, and when the new poll result carries no text
(or empty text) it falls back to the snapshot's text — not to the text most
recently persisted by an earlier poll of the same loop. Every write of a
polling loop run on snapshot t keeps t's service and jobId, and the same
holds for the checkStatus write. -/
theorem c6_amended_merge_semantics (t : TranscriptionData)
    (r : TranscriptionStatusResult) (now : Nat) :
    (mergeWrite t r now).service = t.service ∧
    (mergeWrite t r now).jobId = t.jobId ∧
    (mergeWrite t r now).startedAt = t.startedAt ∧
    (r.text = none → (mergeWrite t r now).text = t.text) ∧
    (r.text = some "" → (mergeWrite t r now).text = t.text) ∧
    (∀ msg, (errWrite t msg).service = t.service ∧ (errWrite t msg).jobId = t.jobId ∧
      (errWrite t msg).text = t.text) ∧
    (∀ resp clock i k w, ManagerEvent.write w ∈ pollUntilCompleteAux t resp clock i k →
      w.service = t.service ∧ w.jobId = t.jobId) ∧
    (∀ resp2 now2 w, ManagerEvent.write w ∈ checkStatusEvents true (some t) resp2 now2 →
      w.service = t.service ∧ w.jobId = t.jobId) := by
  have hmerge : ∀ r2 now2, (mergeWrite t r2 now2).service = t.service ∧
      (mergeWrite t r2 now2).jobId = t.jobId := fun _ _ => ⟨rfl, rfl⟩
  have herr : ∀ msg, (errWrite t msg).service = t.service ∧
      (errWrite t msg).jobId = t.jobId := fun _ => ⟨rfl, rfl⟩
  refine ⟨rfl, rfl, rfl, ?_, ?_, fun msg => ⟨rfl, rfl, rfl⟩, ?_, ?_⟩
  · intro h
    simp [mergeWrite, textOr, h]
  · intro h
    simp [mergeWrite, textOr, h]
  · intro resp clock i k
    induction k generalizing i with
    | zero =>
      intro w hw
      simp only [pollUntilCompleteAux, List.mem_singleton] at hw
      cases hw
      exact herr _
    | succ k ih =>
      intro w hw
      simp only [pollUntilCompleteAux, List.mem_cons] at hw
      rcases hw with hw | hw
      · cases hw
      · rcases hresp : resp i with e | r2
        · rw [hresp] at hw
          simp only [List.mem_singleton] at hw
          cases hw
          exact herr _
        · rw [hresp] at hw
          simp only [List.mem_cons] at hw
          rcases hw with hw | hw
          · cases hw
            exact hmerge r2 (clock i)
          · by_cases hterm : r2.status = .completed ∨ r2.status = .error
            · rw [if_pos hterm] at hw
              cases hw
            · rw [if_neg hterm] at hw
              exact ih (i + 1) w hw
  · intro resp2 now2 w hw
    simp only [checkStatusEvents, if_pos rfl] at hw
    by_cases hj : strTruthy t.jobId = true
    · rw [if_pos hj] at hw
      rcases resp2 with e | r2
      · simp at hw
      · simp at hw
        cases hw
        exact hmerge r2 now2
    · rw [if_neg hj] at hw
      simp at hw

/-- Witness for the amended C6: a merging write on the concrete C6 snapshot
with a completed, text-free result keeps service, jobId and (absent) text. -/
theorem c6_amended_merge_semantics_witness :
    (mergeWrite c6snap { status := .completed } 9).service = c6snap.service ∧
    (mergeWrite c6snap { status := .completed } 9).jobId = c6snap.jobId ∧
    (mergeWrite c6snap { status := .completed } 9).text = c6snap.text :=
  ⟨(c6_amended_merge_semantics c6snap { status := .completed } 9).1,
   (c6_amended_merge_semantics c6snap { status := .completed } 9).2.1,
   (c6_amended_merge_semantics c6snap { status := .completed } 9).2.2.2.1 rfl⟩
